import Mathlib

/-!
Shallow embedding of the flag-pattern analysis core of `app_mar8_v2.py`.

Price values are modelled as rationals.  The pandas float pipeline inside
`compute_rsi` can produce NaN (missing window, 0/0) and infinities
(positive gain divided by a zero loss average), so the indicator values are
modelled by an explicit value type `FV` with IEEE-style propagation rules;
`fillna(0)` is the final coercion of NaN back to 0, exactly as in the source.

A price series is a list of bars carrying the date index and the
Open/High/Low/Close columns that the core reads (High, Low, Close).
Date lookups (`in index`, `.loc`, `get_loc`) are modelled as first-position
lookup of the date in the bar list.
-/

/-- Value of a float cell in the indicator pipeline: a finite rational,
positive or negative infinity, or NaN. -/
inductive FV where
  | num : ℚ → FV
  | pinf : FV
  | minf : FV
  | nan : FV
deriving DecidableEq, Repr

namespace FV

/-- Float addition with NaN/infinity propagation. -/
def fadd : FV → FV → FV
  | nan, _ => nan
  | _, nan => nan
  | pinf, minf => nan
  | minf, pinf => nan
  | pinf, _ => pinf
  | _, pinf => pinf
  | minf, _ => minf
  | _, minf => minf
  | num a, num b => num (a + b)

/-- Float negation. -/
def fneg : FV → FV
  | nan => nan
  | pinf => minf
  | minf => pinf
  | num a => num (-a)

/-- Float subtraction. -/
def fsub (x y : FV) : FV := fadd x (fneg y)

/-- Float division.  A nonzero finite value divided by (positive) zero gives a
signed infinity, `0/0` gives NaN, and a finite value divided by an infinity
gives zero — the numpy/pandas rules that `compute_rsi` relies on. -/
def fdiv : FV → FV → FV
  | nan, _ => nan
  | _, nan => nan
  | num _, pinf => num 0
  | num _, minf => num 0
  | pinf, pinf => nan
  | pinf, minf => nan
  | minf, pinf => nan
  | minf, minf => nan
  | pinf, num b => if b < 0 then minf else pinf
  | minf, num b => if b < 0 then pinf else minf
  | num a, num b =>
      if b = 0 then (if a = 0 then nan else if 0 < a then pinf else minf)
      else num (a / b)

/-- Float comparison `x > q` against a finite bound: NaN compares false. -/
def fgt (x : FV) (q : ℚ) : Bool :=
  match x with
  | num a => decide (q < a)
  | pinf => true
  | minf => false
  | nan => false

/-- Float comparison `x > y`: any NaN operand compares false. -/
def fvgt : FV → FV → Bool
  | num a, num b => decide (b < a)
  | num _, minf => true
  | num _, _ => false
  | pinf, num _ => true
  | pinf, minf => true
  | pinf, _ => false
  | minf, _ => false
  | nan, _ => false

/-- `Series.fillna(q)`: replace NaN by `q`. -/
def fillna (x : FV) (q : ℚ) : FV :=
  match x with
  | nan => num q
  | v => v

end FV

/-- One row of the price series: date index and the price columns the core
reads. -/
structure Bar where
  date : ℕ
  high : ℚ
  low : ℚ
  close : ℚ
deriving DecidableEq, Repr

/-- The `Close` column. -/
def closes (data : List Bar) : List ℚ := data.map Bar.close

/-- The date at a bar position (`data.index[j]`). -/
def dateAt (data : List Bar) (j : ℕ) : ℕ := (data.getD j ⟨0, 0, 0, 0⟩).date

/-- `series.diff()` at position `j`: NaN at the first position. -/
def delta (c : List ℚ) (j : ℕ) : FV :=
  if j = 0 then FV.nan else FV.num (c.getD j 0 - c.getD (j - 1) 0)

/-- `delta.where(delta > 0, 0)` at position `j`: the NaN at position 0 fails
the condition and is replaced by 0, so the result is a plain rational. -/
def gainRaw (c : List ℚ) (j : ℕ) : ℚ :=
  match delta c j with
  | FV.num d => if 0 < d then d else 0
  | _ => 0

/-- `(-delta.where(delta < 0, 0))` at position `j`. -/
def lossRaw (c : List ℚ) (j : ℕ) : ℚ :=
  match delta c j with
  | FV.num d => if d < 0 then -d else 0
  | _ => 0

/-- `rolling(window=period).mean()` at position `j`: NaN until the window is
full, then the mean of the last `period` values. -/
def rollMean (f : ℕ → ℚ) (period j : ℕ) : FV :=
  if j + 1 < period then FV.nan
  else FV.num ((((List.range period).map fun k => f (j - k)).sum) / (period : ℚ))

/-- `rs = gain / loss` at position `j`. -/
def rsIdx (c : List ℚ) (period j : ℕ) : FV :=
  FV.fdiv (rollMean (gainRaw c) period j) (rollMean (lossRaw c) period j)

/-- `rsi = 100 - (100 / (1 + rs))` at position `j`, before `fillna`. -/
def rsiRaw (c : List ℚ) (period j : ℕ) : FV :=
  FV.fsub (FV.num 100) (FV.fdiv (FV.num 100) (FV.fadd (FV.num 1) (rsIdx c period j)))

/-- `compute_rsi(series, period)` evaluated at position `j`
(the source returns the whole series; positionwise values agree). -/
def compute_rsi (c : List ℚ) (period j : ℕ) : FV :=
  FV.fillna (rsiRaw c period j) 0

/-- `data['Close'].rolling(window=50).mean()` at position `j`. -/
def ma50At (data : List Bar) (j : ℕ) : FV :=
  rollMean (fun k => (closes data).getD k 0) 50 j

/-- `is_strong_flag(data, flag_end_date)`: RSI (period 14, full series) at the
date's position is `> 50`; `False` when the date is absent. -/
def is_strong_flag (data : List Bar) (d : ℕ) : Bool :=
  match data.findIdx? (fun b => b.date = d) with
  | some j => FV.fgt (compute_rsi (closes data) 14 j) 50
  | none => false

/-- `is_above_ma50(data, flag_end_date)`: Close at the date strictly above the
50-bar rolling mean there; NaN (short window) or an absent date gives
`False`. -/
def is_above_ma50 (data : List Bar) (d : ℕ) : Bool :=
  match data.findIdx? (fun b => b.date = d) with
  | some j => FV.fvgt (FV.num ((closes data).getD j 0)) (ma50At data j)
  | none => false

/-- Direction tag of a detected pattern (`trend_direction`). -/
inductive Direction where
  | bullish : Direction
  | bearish : Direction
deriving DecidableEq, Repr

/-- One detected flag pattern, with the fields of the emitted dict. -/
structure PatternRecord where
  date : ℕ
  poleStart : ℕ
  flagEnd : ℕ
  poleChange : ℚ
  consolidationRange : ℚ
  direction : Direction
deriving DecidableEq, Repr

/-- Least-squares slope of `ys` against positions `0, 1, …`
(`np.polyfit(range(len(ys)), ys, 1)[0]`). -/
def slopeOf (ys : List ℚ) : ℚ :=
  let m : ℚ := (ys.length : ℚ)
  let xs : List ℚ := (List.range ys.length).map fun k => (k : ℚ)
  let sx := xs.sum
  let sy := ys.sum
  let sxy := ((xs.zip ys).map fun p => p.1 * p.2).sum
  let sxx := (xs.map fun x => x * x).sum
  (m * sxy - sx * sy) / (m * sxx - sx * sx)

/-- The body of the scan loop of `detect_flag_patterns` at index `i`:
`some flag` exactly when the iteration appends a pattern.  An empty
consolidation window makes the range comparison false (max/min of an empty
window is NaN), so the candidate is skipped. -/
def detectAt (data : List Bar) (poleThr flagThr : ℚ) (cd i : ℕ) : Option PatternRecord :=
  let currentClose := (closes data).getD i 0
  let pastClose := (closes data).getD (i - 10) 0
  let priceChange := (currentClose - pastClose) / pastClose
  if |priceChange| > poleThr then
    let window := (data.drop i).take cd
    match (window.map Bar.high).max?, (window.map Bar.low).min? with
    | some highPrice, some lowPrice =>
      let priceRange := (highPrice - lowPrice) / lowPrice
      if priceRange < flagThr then
        let flagSlope := slopeOf (window.map Bar.close)
        if 0 < priceChange then
          if flagSlope ≤ 0 then
            let flagEndDate := dateAt data (i + cd)
            if is_strong_flag data flagEndDate && is_above_ma50 data flagEndDate then
              some ⟨dateAt data i, dateAt data (i - 10), flagEndDate,
                    priceChange, priceRange, Direction.bullish⟩
            else none
          else none
        else
          if 0 < flagSlope then
            some ⟨dateAt data i, dateAt data (i - 10), dateAt data (i + cd),
                  priceChange, priceRange, Direction.bearish⟩
          else none
      else none
    | _, _ => none
  else none

/-- `detect_flag_patterns(data, pole_threshold, flag_threshold,
consolidation_days)`: scan `i` over `range(10, len(data) - cd - 1)` and
collect the emitted patterns in order. -/
def detect_flag_patterns (data : List Bar) (poleThr flagThr : ℚ) (cd : ℕ) : List PatternRecord :=
  (List.range' 10 (data.length - cd - 1 - 10)).filterMap (detectAt data poleThr flagThr cd)

/-- One evaluated pattern (`pattern_details` row, unformatted). -/
structure Outcome where
  poleStart : ℕ
  flagStart : ℕ
  flagEnd : ℕ
  direction : Direction
  priceChange : ℚ
  success : Bool
  daysAfter : ℕ
  threshold : ℚ
deriving DecidableEq, Repr

/-- The body of the evaluation loop of `calculate_success_probability` for one
flag: `none` exactly when the pattern is silently skipped (flag end date
absent from the index, or no forward observation inside the series). -/
def calcOne (data : List Bar) (daysAfter : ℕ) (threshold : ℚ) (f : PatternRecord) : Option Outcome :=
  match data.findIdx? (fun b => b.date = f.flagEnd) with
  | none => none
  | some flagEndIdx =>
    if data.length ≤ flagEndIdx + daysAfter then none
    else
      let futurePrice := (closes data).getD (flagEndIdx + daysAfter) 0
      let flagEndPrice := (closes data).getD flagEndIdx 0
      let priceChange := (futurePrice - flagEndPrice) / flagEndPrice
      let success : Bool :=
        if f.direction = Direction.bullish then decide (threshold ≤ priceChange)
        else decide (priceChange ≤ -threshold)
      some ⟨f.poleStart, f.date, f.flagEnd, f.direction, priceChange,
            success, daysAfter, threshold⟩

/-- `calculate_success_probability(data, flags, threshold)` with the
UI-selected `days_after` passed as a plain parameter: per-direction success
rates and the evaluated rows.  The loop's four counters are the sizes of the
corresponding sublists of the evaluated rows. -/
def calculate_success_probability (data : List Bar) (flags : List PatternRecord)
    (daysAfter : ℕ) (threshold : ℚ) : ℚ × ℚ × List Outcome :=
  if flags = [] then (0, 0, [])
  else
    let recs := flags.filterMap (calcOne data daysAfter threshold)
    let validBullish := (recs.filter fun o => decide (o.direction = Direction.bullish)).length
    let bullishSuccess :=
      (recs.filter fun o => decide (o.direction = Direction.bullish) && o.success).length
    let validBearish := (recs.filter fun o => decide (o.direction = Direction.bearish)).length
    let bearishSuccess :=
      (recs.filter fun o => decide (o.direction = Direction.bearish) && o.success).length
    let bullishProb : ℚ := if 0 < validBullish then (bullishSuccess : ℚ) / (validBullish : ℚ) else 0
    let bearishProb : ℚ := if 0 < validBearish then (bearishSuccess : ℚ) / (validBearish : ℚ) else 0
    (bullishProb, bearishProb, recs)

/-!
Concrete price series used as test vectors: a short series emitting one
bearish pattern, a variant of it isolating the scan upper bound, a longer
series emitting bullish patterns, and a malformed variant with a
non-positive price.  Dates are the bar positions.
-/

set_option maxRecDepth 20000

attribute [local semireducible] Rat.add Rat.sub Rat.mul Rat.inv Rat.ofScientific

/-- Close price of `dataB`: flat at 100, a −2% pole into bar 10, then a
narrow upward-drifting consolidation over bars 10–19. -/
def bClose (j : ℕ) : ℚ :=
  if j ≤ 9 then 100
  else if j ≤ 19 then 98 + ((j - 10 : ℕ) : ℚ) / 10
  else 99

/-- 22-bar series whose only qualifying scan index is `i = 10` (bearish). -/
def dataB : List Bar := (List.range 22).map fun j => ⟨j, bClose j, bClose j, bClose j⟩

/-- Close price of `dataC1`: the same shape as `dataB` shifted one bar later,
so the only index satisfying every pattern test is `i = 11 = len − cd − 1`. -/
def cClose (j : ℕ) : ℚ :=
  if j ≤ 10 then 100
  else if j ≤ 20 then 98 + ((j - 11 : ℕ) : ℚ) / 10
  else 99

/-- 22-bar series where all pattern tests pass at `i = 11` and nowhere else. -/
def dataC1 : List Bar := (List.range 22).map fun j => ⟨j, cClose j, cClose j, cClose j⟩

/-- Close price of `dataBull`: flat at 100, a +10% pole over bars 50–60, a
narrow downward-drifting consolidation over bars 60–69, then a close above
the 50-bar mean. -/
def bullClose (j : ℕ) : ℚ :=
  if j ≤ 50 then 100
  else if j ≤ 60 then 100 + ((j - 50 : ℕ) : ℚ)
  else if j ≤ 69 then 110 - ((j - 60 : ℕ) : ℚ) / 10
  else 111

/-- 72-bar series emitting bullish patterns (anchors 59 and 60). -/
def dataBull : List Bar := (List.range 72).map fun j => ⟨j, bullClose j, bullClose j, bullClose j⟩

/-- `dataB` with a non-positive price planted at bar 5. -/
def negClose (j : ℕ) : ℚ := if j = 5 then -100 else bClose j

/-- Malformed 22-bar series: bar 5 carries price −100. -/
def dataNeg : List Bar := (List.range 22).map fun j => ⟨j, negClose j, negClose j, negClose j⟩

/-- The single (bearish) pattern detected on `dataB`. -/
def bearFlag : PatternRecord := ⟨10, 0, 20, -1/50, 9/980, Direction.bearish⟩

/-- A pattern whose flag end date 999 is absent from `dataB`. -/
def badFlag : PatternRecord := ⟨10, 0, 999, -1/50, 9/980, Direction.bearish⟩

/-- The bullish pattern detected on `dataBull` at anchor 60. -/
def bullFlag : PatternRecord := ⟨60, 50, 70, 1/10, 9/1091, Direction.bullish⟩

/-- Input list for the outcome-evaluator test vectors. -/
def flagsW : List PatternRecord := [bearFlag, badFlag]

/-- The evaluated row produced from `bearFlag` on `dataB` with horizon 1. -/
def bearOutcome : Outcome := ⟨0, 10, 20, Direction.bearish, 0, false, 1, 1/10000⟩

/-!  Helper lemmas about the indicator pipeline.  -/

lemma gainRaw_nonneg (c : List ℚ) (j : ℕ) : 0 ≤ gainRaw c j := by
  unfold gainRaw
  cases delta c j with
  | num d =>
    dsimp only
    split
    · linarith
    · exact le_refl 0
  | pinf => exact le_refl 0
  | minf => exact le_refl 0
  | nan => exact le_refl 0

lemma lossRaw_nonneg (c : List ℚ) (j : ℕ) : 0 ≤ lossRaw c j := by
  unfold lossRaw
  cases delta c j with
  | num d =>
    dsimp only
    split
    · linarith
    · exact le_refl 0
  | pinf => exact le_refl 0
  | minf => exact le_refl 0
  | nan => exact le_refl 0

lemma rollMean_nonneg_num (f : ℕ → ℚ) (hf : ∀ k, 0 ≤ f k) (period j : ℕ)
    (h : ¬ j + 1 < period) :
    ∃ q, rollMean f period j = FV.num q ∧ 0 ≤ q := by
  refine ⟨_, by rw [rollMean, if_neg h], ?_⟩
  apply div_nonneg
  · apply List.sum_nonneg
    intro x hx
    obtain ⟨k, -, rfl⟩ := List.mem_map.mp hx
    exact hf _
  · exact Nat.cast_nonneg _

/-- Full case analysis of one `compute_rsi` value: short window and `0/0`
are NaN coerced to 0 by `fillna`, a positive gain over a zero loss gives
`+∞` and hence the value 100, and otherwise the value is the usual bounded
ratio formula. -/
lemma compute_rsi_cases (c : List ℚ) (p j : ℕ) :
    (j + 1 < p ∧ compute_rsi c p j = FV.num 0) ∨
    (¬ j + 1 < p ∧ ∃ g l, 0 ≤ g ∧ 0 ≤ l ∧
      rollMean (gainRaw c) p j = FV.num g ∧ rollMean (lossRaw c) p j = FV.num l ∧
      ((l = 0 ∧ g = 0 ∧ compute_rsi c p j = FV.num 0) ∨
       (l = 0 ∧ g ≠ 0 ∧ compute_rsi c p j = FV.num 100) ∨
       (l ≠ 0 ∧ compute_rsi c p j = FV.num (100 - 100 / (1 + g / l))))) := by
  by_cases h : j + 1 < p
  · left
    refine ⟨h, ?_⟩
    unfold compute_rsi rsiRaw rsIdx rollMean
    simp only [if_pos h]
    simp [FV.fdiv, FV.fadd, FV.fsub, FV.fneg, FV.fillna]
  · right
    refine ⟨h, ?_⟩
    obtain ⟨g, hgEq, hg0⟩ := rollMean_nonneg_num (gainRaw c) (gainRaw_nonneg c) p j h
    obtain ⟨l, hlEq, hl0⟩ := rollMean_nonneg_num (lossRaw c) (lossRaw_nonneg c) p j h
    refine ⟨g, l, hg0, hl0, hgEq, hlEq, ?_⟩
    by_cases hl : l = 0
    · by_cases hg : g = 0
      · left
        refine ⟨hl, hg, ?_⟩
        unfold compute_rsi rsiRaw rsIdx
        rw [hgEq, hlEq, hl, hg]
        simp [FV.fdiv, FV.fadd, FV.fsub, FV.fneg, FV.fillna]
      · right; left
        refine ⟨hl, hg, ?_⟩
        have hgpos : 0 < g := lt_of_le_of_ne hg0 (Ne.symm hg)
        unfold compute_rsi rsiRaw rsIdx
        rw [hgEq, hlEq, hl]
        simp only [FV.fdiv, if_pos rfl, if_neg hg, if_pos hgpos]
        simp [FV.fadd, FV.fsub, FV.fneg, FV.fillna]
    · right; right
      refine ⟨hl, ?_⟩
      have hlpos : 0 < l := lt_of_le_of_ne hl0 (Ne.symm hl)
      have hqpos : (0:ℚ) < 1 + g / l := by positivity
      unfold compute_rsi rsiRaw rsIdx
      rw [hgEq, hlEq]
      simp only [FV.fdiv, if_neg hl, FV.fadd]
      simp only [FV.fdiv, if_neg (ne_of_gt hqpos), FV.fsub, FV.fadd, FV.fneg, FV.fillna]
      norm_num [sub_eq_add_neg]

/-- `compute_rsi` never produces NaN, an infinity, or a missing value. -/
lemma compute_rsi_isNum (c : List ℚ) (p j : ℕ) : ∃ q, compute_rsi c p j = FV.num q := by
  rcases compute_rsi_cases c p j with ⟨-, h⟩ | ⟨-, g, l, -, -, -, -, h | h | h⟩
  · exact ⟨0, h⟩
  · exact ⟨0, h.2.2⟩
  · exact ⟨100, h.2.2⟩
  · exact ⟨_, h.2⟩

/-- A true `is_strong_flag` means the date is present and the RSI value at its
position is a finite rational above 50. -/
lemma is_strong_flag_elim {data : List Bar} {d : ℕ} (h : is_strong_flag data d = true) :
    ∃ j q, data.findIdx? (fun b => b.date = d) = some j ∧
      compute_rsi (closes data) 14 j = FV.num q ∧ 50 < q := by
  unfold is_strong_flag at h
  split at h
  case h_1 j heq =>
    obtain ⟨q, hq⟩ := compute_rsi_isNum (closes data) 14 j
    rw [hq] at h
    refine ⟨j, q, heq, hq, ?_⟩
    simpa [FV.fgt] using h
  case h_2 => exact absurd h (by simp)

/-- A true `is_above_ma50` means the date is present at a position past the
first 49 bars (the mean is NaN earlier) and Close there exceeds the mean. -/
lemma is_above_ma50_elim {data : List Bar} {d : ℕ} (h : is_above_ma50 data d = true) :
    ∃ j m, data.findIdx? (fun b => b.date = d) = some j ∧ 49 ≤ j ∧
      ma50At data j = FV.num m ∧ m < (closes data).getD j 0 := by
  unfold is_above_ma50 at h
  split at h
  case h_1 j heq =>
    by_cases h50 : j + 1 < 50
    · rw [show ma50At data j = FV.nan by rw [ma50At, rollMean, if_pos h50]] at h
      exact absurd h (by simp [FV.fvgt])
    · have hma : ma50At data j =
          FV.num ((((List.range 50).map fun k => (closes data).getD (j - k) 0).sum) /
            ((50 : ℕ) : ℚ)) := by
        rw [ma50At, rollMean, if_neg h50]
      refine ⟨j, _, heq, by omega, hma, ?_⟩
      rw [hma] at h
      simpa [FV.fvgt] using h
  case h_2 => exact absurd h (by simp)

/-- Membership in the scan output: exactly the loop indices of
`range(10, len(data) - cd - 1)` can produce a record. -/
lemma mem_detect_iff {data : List Bar} {pt ft : ℚ} {cd : ℕ} {f : PatternRecord} :
    f ∈ detect_flag_patterns data pt ft cd ↔
      ∃ i, 10 ≤ i ∧ i + cd + 2 ≤ data.length ∧ detectAt data pt ft cd i = some f := by
  unfold detect_flag_patterns
  rw [List.mem_filterMap]
  constructor
  · rintro ⟨i, hi, hf⟩
    rw [List.mem_range'_1] at hi
    exact ⟨i, hi.1, by omega, hf⟩
  · rintro ⟨i, h10, hlen, hf⟩
    exact ⟨i, List.mem_range'_1.mpr ⟨h10, by omega⟩, hf⟩

/-- What one emitting loop iteration guarantees: the three record dates come
from the fixed-offset window around `i`, the consolidation window is
nonempty, and a bullish record passed both confirmation gates. -/
lemma detectAt_elim {data : List Bar} {pt ft : ℚ} {cd i : ℕ} {f : PatternRecord}
    (h : detectAt data pt ft cd i = some f) :
    f.date = dateAt data i ∧ f.poleStart = dateAt data (i - 10) ∧
    f.flagEnd = dateAt data (i + cd) ∧ (data.drop i).take cd ≠ [] ∧
    (f.direction = Direction.bullish →
      is_strong_flag data (dateAt data (i + cd)) = true ∧
      is_above_ma50 data (dateAt data (i + cd)) = true) := by
  simp only [detectAt] at h
  split at h
  case isFalse => exact absurd h (by simp)
  case isTrue hpole =>
    split at h
    case h_2 => exact absurd h (by simp)
    case h_1 highPrice lowPrice heqHigh heqLow =>
      have hwin : (data.drop i).take cd ≠ [] := by
        intro hw
        rw [hw] at heqHigh
        simp at heqHigh
      split at h
      case isFalse => exact absurd h (by simp)
      case isTrue hrange =>
        split at h
        case isTrue hbull =>
          split at h
          case isFalse => exact absurd h (by simp)
          case isTrue hslope =>
            split at h
            case isFalse => exact absurd h (by simp)
            case isTrue hgates =>
              rw [Option.some_inj] at h
              subst h
              rw [Bool.and_eq_true] at hgates
              exact ⟨rfl, rfl, rfl, hwin, fun _ => hgates⟩
        case isFalse hbear =>
          split at h
          case isFalse => exact absurd h (by simp)
          case isTrue hslope =>
            rw [Option.some_inj] at h
            subst h
            exact ⟨rfl, rfl, rfl, hwin, fun hdir => by exact absurd hdir (by simp)⟩

/-!  Claim theorems.  -/

/-- C1 (amended): `detect_flag_patterns` examines exactly the scan indices
`i` with `10 ≤ i ≤ len(data) − consolidationDays − 2`: a record is emitted
iff its loop iteration emits it at such an index, so the first 10 bars and
the last `consolidationDays + 1` bars never anchor a pattern. -/
theorem scan_anchor_range (data : List Bar) (pt ft : ℚ) (cd : ℕ) (f : PatternRecord) :
    f ∈ detect_flag_patterns data pt ft cd ↔
      ∃ i, 10 ≤ i ∧ i + cd + 2 ≤ data.length ∧
        detectAt data pt ft cd i = some f ∧ f.date = dateAt data i := by
  rw [mem_detect_iff]
  constructor
  · rintro ⟨i, h10, hlen, hAt⟩
    exact ⟨i, h10, hlen, hAt, (detectAt_elim hAt).1⟩
  · rintro ⟨i, h10, hlen, hAt, -⟩
    exact ⟨i, h10, hlen, hAt⟩

theorem scan_anchor_range_witness :
    bearFlag ∈ detect_flag_patterns dataB (3/200) (1/40) 10 ∧
    ∃ i, 10 ≤ i ∧ i + 10 + 2 ≤ dataB.length ∧
      detectAt dataB (3/200) (1/40) 10 i = some bearFlag ∧ bearFlag.date = dateAt dataB i :=
  ⟨by decide, (scan_anchor_range dataB (3/200) (1/40) 10 bearFlag).mp (by decide)⟩

/-- C1 counterexample: on `dataC1` every pattern test passes at scan index
`len − consolidationDays − 1 = 11` (the loop body would emit a record
there), yet the scan stops one index earlier and emits nothing, so index
`len − consolidationDays − 1` is never examined. -/
theorem scan_upper_bound_counterexample :
    dataC1.length - 10 - 1 = 11 ∧
    detectAt dataC1 (3/200) (1/40) 10 11 =
      some ⟨11, 1, 21, -1/50, 9/980, Direction.bearish⟩ ∧
    detect_flag_patterns dataC1 (3/200) (1/40) 10 = [] := by
  refine ⟨by decide, by decide, by decide⟩

/-- C2 (amended): `compute_rsi` always returns a finite rational: 0 at every
position whose window is not yet full and at every position where both the
gain and the loss rolling averages are 0; where the loss average is 0 but
the gain average is not, it returns 100 (not 0). -/
theorem compute_rsi_defined_and_zero_cases (c : List ℚ) (p j : ℕ) :
    ∃ q, compute_rsi c p j = FV.num q ∧
      (j + 1 < p → q = 0) ∧
      (rollMean (lossRaw c) p j = FV.num 0 → rollMean (gainRaw c) p j = FV.num 0 → q = 0) ∧
      (∀ g, rollMean (lossRaw c) p j = FV.num 0 → rollMean (gainRaw c) p j = FV.num g →
        g ≠ 0 → q = 100) := by
  rcases compute_rsi_cases c p j with ⟨hshort, hval⟩ |
    ⟨hlong, g, l, hg0, hl0, hgEq, hlEq, hcase⟩
  · refine ⟨0, hval, fun _ => rfl, fun hL _ => rfl, fun g hL _ _ => ?_⟩
    rw [rollMean, if_pos hshort] at hL
    exact absurd hL (by simp)
  · rcases hcase with ⟨hl, hg, hval⟩ | ⟨hl, hg, hval⟩ | ⟨hl, hval⟩
    · refine ⟨0, hval, fun hs => absurd hs hlong, fun _ _ => rfl, fun g' hL hG hne => ?_⟩
      rw [hgEq] at hG
      exact absurd ((FV.num.inj hG).symm.trans hg) hne
    · refine ⟨100, hval, fun hs => absurd hs hlong, fun hL hG => ?_, fun _ _ _ _ => rfl⟩
      rw [hgEq] at hG
      exact absurd (FV.num.inj hG) hg
    · refine ⟨_, hval, fun hs => absurd hs hlong, fun hL _ => ?_, fun g' hL _ _ => ?_⟩
      · rw [hlEq] at hL
        exact absurd (FV.num.inj hL) hl
      · rw [hlEq] at hL
        exact absurd (FV.num.inj hL) hl

theorem compute_rsi_defined_and_zero_cases_witness :
    compute_rsi [1, 2, 3] 2 0 = FV.num 0 := by
  obtain ⟨q, hq, h1, -, -⟩ := compute_rsi_defined_and_zero_cases [1, 2, 3] 2 0
  rw [h1 (by decide)] at hq
  exact hq

/-- C2 counterexample: at position 1 of the series `[1, 2, 3]` with period 2
the loss rolling average is 0 (no negative deltas in the window), and
`compute_rsi` returns 100, not 0. -/
theorem compute_rsi_zero_loss_counterexample :
    rollMean (lossRaw [1, 2, 3]) 2 1 = FV.num 0 ∧
    compute_rsi [1, 2, 3] 2 1 = FV.num 100 := by
  refine ⟨by decide, by decide⟩

/-- C7: on an empty pattern list the evaluator returns exactly the rates
`(0, 0)` and the empty record list, as a normal result. -/
theorem evaluate_outcomes_empty (data : List Bar) (daysAfter : ℕ) (threshold : ℚ) :
    calculate_success_probability data [] daysAfter threshold = (0, 0, []) := by
  simp [calculate_success_probability]

/-- C8: the detector performs no input validation: on a series carrying a
non-positive price it silently returns a pattern list computed from the
malformed data instead of failing fast. -/
theorem detect_accepts_nonpositive_prices :
    (∃ b ∈ dataNeg, b.close ≤ 0) ∧
    detect_flag_patterns dataNeg (3/200) (1/40) 10 =
      [⟨10, 0, 20, -1/50, 9/980, Direction.bearish⟩] := by
  refine ⟨by decide, by decide⟩

/-- C9: detection is a pure function of the series and the three parameters:
equal inputs give identical output lists. -/
theorem detect_deterministic (d1 d2 : List Bar) (pt1 pt2 ft1 ft2 : ℚ) (cd1 cd2 : ℕ)
    (hd : d1 = d2) (hpt : pt1 = pt2) (hft : ft1 = ft2) (hcd : cd1 = cd2) :
    detect_flag_patterns d1 pt1 ft1 cd1 = detect_flag_patterns d2 pt2 ft2 cd2 := by
  rw [hd, hpt, hft, hcd]

theorem detect_deterministic_witness :
    dataB = dataB ∧
    detect_flag_patterns dataB (3/200) (1/40) 10 =
      detect_flag_patterns dataB (3/200) (1/40) 10 :=
  ⟨rfl, detect_deterministic dataB dataB (3/200) (3/200) (1/40) (1/40) 10 10 rfl rfl rfl rfl⟩

/-- C3: every bullish record has a finite RSI value strictly above 50 at its
flag end position and Close there strictly above the finite 50-bar mean
(period-14 RSI and 50-bar mean over the full series); a bearish record is
emitted with no such constraint — on `dataB` a bearish record is emitted
although both gates are false at its flag end. -/
theorem bullish_records_pass_confirmation :
    (∀ (data : List Bar) (pt ft : ℚ) (cd : ℕ) (f : PatternRecord),
      f ∈ detect_flag_patterns data pt ft cd → f.direction = Direction.bullish →
      ∃ j q m, data.findIdx? (fun b => b.date = f.flagEnd) = some j ∧
        compute_rsi (closes data) 14 j = FV.num q ∧ 50 < q ∧
        ma50At data j = FV.num m ∧ m < (closes data).getD j 0) ∧
    (∃ f, f ∈ detect_flag_patterns dataB (3/200) (1/40) 10 ∧
      f.direction = Direction.bearish ∧
      is_strong_flag dataB f.flagEnd = false ∧ is_above_ma50 dataB f.flagEnd = false) := by
  constructor
  · intro data pt ft cd f hmem hdir
    obtain ⟨i, -, -, hAt⟩ := mem_detect_iff.mp hmem
    obtain ⟨-, -, hEnd, -, hgates⟩ := detectAt_elim hAt
    obtain ⟨hstrong, habove⟩ := hgates hdir
    rw [← hEnd] at hstrong habove
    obtain ⟨j, q, hfind, hrsi, hq⟩ := is_strong_flag_elim hstrong
    obtain ⟨j2, m, hfind2, -, hma, hm⟩ := is_above_ma50_elim habove
    have hj : j2 = j := by
      rw [hfind] at hfind2
      exact (Option.some.inj hfind2).symm
    rw [hj] at hma hm
    exact ⟨j, q, m, hfind, hrsi, hq, hma, hm⟩
  · exact ⟨bearFlag, by decide, by decide, by decide, by decide⟩

theorem bullish_records_pass_confirmation_witness :
    bullFlag ∈ detect_flag_patterns dataBull (3/200) (1/40) 10 ∧
    bullFlag.direction = Direction.bullish ∧
    ∃ j q m, dataBull.findIdx? (fun b => b.date = bullFlag.flagEnd) = some j ∧
      compute_rsi (closes dataBull) 14 j = FV.num q ∧ 50 < q ∧
      ma50At dataBull j = FV.num m ∧ m < (closes dataBull).getD j 0 :=
  ⟨by decide, by decide,
    bullish_records_pass_confirmation.1 dataBull (3/200) (1/40) 10 bullFlag
      (by decide) (by decide)⟩

/-- C10: a bullish record's flag end always sits at position 49 or later
(the 50-bar mean is NaN earlier and the fail-closed comparison blocks
emission), while a bearish record can have its flag end among the first 49
bars — on `dataB` one is emitted with flag end at position 20. -/
theorem bullish_flag_end_after_ma_window :
    (∀ (data : List Bar) (pt ft : ℚ) (cd : ℕ) (f : PatternRecord),
      f ∈ detect_flag_patterns data pt ft cd → f.direction = Direction.bullish →
      ∃ j, data.findIdx? (fun b => b.date = f.flagEnd) = some j ∧ 49 ≤ j) ∧
    (∃ f j, f ∈ detect_flag_patterns dataB (3/200) (1/40) 10 ∧
      f.direction = Direction.bearish ∧
      dataB.findIdx? (fun b => b.date = f.flagEnd) = some j ∧ j < 49) := by
  constructor
  · intro data pt ft cd f hmem hdir
    obtain ⟨i, -, -, hAt⟩ := mem_detect_iff.mp hmem
    obtain ⟨-, -, hEnd, -, hgates⟩ := detectAt_elim hAt
    obtain ⟨-, habove⟩ := hgates hdir
    rw [← hEnd] at habove
    obtain ⟨j, m, hfind, h49, -, -⟩ := is_above_ma50_elim habove
    exact ⟨j, hfind, h49⟩
  · exact ⟨bearFlag, 20, by decide, by decide, by decide, by decide⟩

theorem bullish_flag_end_after_ma_window_witness :
    bullFlag ∈ detect_flag_patterns dataBull (3/200) (1/40) 10 ∧
    ∃ j, dataBull.findIdx? (fun b => b.date = bullFlag.flagEnd) = some j ∧ 49 ≤ j :=
  ⟨by decide,
    bullish_flag_end_after_ma_window.1 dataBull (3/200) (1/40) 10 bullFlag
      (by decide) (by decide)⟩

/-- C4: every emitted record comes from a scan index `i` with the pole
window starting exactly 10 bars earlier and the flag end exactly
`consolidationDays` bars later, and when the series dates are strictly
ascending the three dates are strictly ordered and lie inside the series'
date range. -/
theorem pattern_record_window_geometry (data : List Bar) (pt ft : ℚ) (cd : ℕ)
    (f : PatternRecord) (hf : f ∈ detect_flag_patterns data pt ft cd)
    (hAsc : ∀ b, b < data.length → ∀ a, a < b → dateAt data a < dateAt data b) :
    ∃ i, 10 ≤ i ∧ i + cd + 2 ≤ data.length ∧ 0 < cd ∧
      f.poleStart = dateAt data (i - 10) ∧ f.date = dateAt data i ∧
      f.flagEnd = dateAt data (i + cd) ∧
      f.poleStart < f.date ∧ f.date < f.flagEnd ∧
      dateAt data 0 ≤ f.poleStart ∧ f.flagEnd ≤ dateAt data (data.length - 1) := by
  obtain ⟨i, h10, hlen, hAt⟩ := mem_detect_iff.mp hf
  obtain ⟨hDate, hPole, hEnd, hwin, -⟩ := detectAt_elim hAt
  have hcd : 0 < cd := by
    by_contra hc
    exact hwin (by simp [Nat.le_zero.mp (Nat.not_lt.mp hc)])
  refine ⟨i, h10, hlen, hcd, hPole, hDate, hEnd, ?_, ?_, ?_, ?_⟩
  · rw [hPole, hDate]
    exact hAsc i (by omega) (i - 10) (by omega)
  · rw [hDate, hEnd]
    exact hAsc (i + cd) (by omega) i (by omega)
  · rw [hPole]
    rcases Nat.eq_zero_or_pos (i - 10) with hz | hz
    · rw [hz]
    · exact le_of_lt (hAsc (i - 10) (by omega) 0 hz)
  · rw [hEnd]
    exact le_of_lt (hAsc (data.length - 1) (by omega) (i + cd) (by omega))

theorem pattern_record_window_geometry_witness :
    bearFlag ∈ detect_flag_patterns dataB (3/200) (1/40) 10 ∧
    (∀ b, b < dataB.length → ∀ a, a < b → dateAt dataB a < dateAt dataB b) ∧
    ∃ i, 10 ≤ i ∧ i + 10 + 2 ≤ dataB.length ∧ 0 < 10 ∧
      bearFlag.poleStart = dateAt dataB (i - 10) ∧ bearFlag.date = dateAt dataB i ∧
      bearFlag.flagEnd = dateAt dataB (i + 10) ∧
      bearFlag.poleStart < bearFlag.date ∧ bearFlag.date < bearFlag.flagEnd ∧
      dateAt dataB 0 ≤ bearFlag.poleStart ∧
      bearFlag.flagEnd ≤ dateAt dataB (dataB.length - 1) :=
  ⟨by decide, by decide,
    pattern_record_window_geometry dataB (3/200) (1/40) 10 bearFlag (by decide) (by decide)⟩

/-- C5: the evaluator's records are exactly the per-pattern results in input
order; a pattern whose flag end date is absent, or whose forward index
reaches past the series end, is silently dropped; every emitted record's
flag end is in the series with its forward lookup index strictly inside the
series. -/
theorem evaluate_outcomes_skips_and_bounds (data : List Bar) (flags : List PatternRecord)
    (daysAfter : ℕ) (threshold : ℚ) :
    (calculate_success_probability data flags daysAfter threshold).2.2 =
      flags.filterMap (calcOne data daysAfter threshold) ∧
    (∀ f, f ∈ flags →
      (data.findIdx? (fun b => b.date = f.flagEnd) = none ∨
        ∃ idx, data.findIdx? (fun b => b.date = f.flagEnd) = some idx ∧
          data.length ≤ idx + daysAfter) →
      calcOne data daysAfter threshold f = none) ∧
    (∀ o, o ∈ (calculate_success_probability data flags daysAfter threshold).2.2 →
      ∃ idx, data.findIdx? (fun b => b.date = o.flagEnd) = some idx ∧
        idx + daysAfter < data.length) := by
  refine ⟨?_, ?_, ?_⟩
  · by_cases h : flags = [] <;> simp [calculate_success_probability, h]
  · rintro f - (hnone | ⟨idx, hsome, hle⟩)
    · unfold calcOne
      rw [hnone]
    · unfold calcOne
      rw [hsome]
      simp only [if_pos hle]
  · intro o ho
    by_cases h : flags = []
    · rw [h] at ho
      simp [calculate_success_probability] at ho
    · rw [show (calculate_success_probability data flags daysAfter threshold).2.2 =
          flags.filterMap (calcOne data daysAfter threshold) by
        simp [calculate_success_probability, h]] at ho
      obtain ⟨f, -, hc⟩ := List.mem_filterMap.mp ho
      unfold calcOne at hc
      split at hc
      next => exact absurd hc (by simp)
      next idx heq =>
        split at hc
        next => exact absurd hc (by simp)
        next hlt =>
          rw [Option.some_inj] at hc
          subst hc
          exact ⟨idx, heq, by omega⟩

theorem evaluate_outcomes_skips_and_bounds_witness :
    badFlag ∈ flagsW ∧
    dataB.findIdx? (fun b => b.date = badFlag.flagEnd) = none ∧
    calcOne dataB 1 (1/10000) badFlag = none :=
  ⟨by decide, by decide,
    (evaluate_outcomes_skips_and_bounds dataB flagsW 1 (1/10000)).2.1 badFlag (by decide)
      (Or.inl (by decide))⟩

/-- C6: each evaluated record keeps its pattern's direction; a bullish record
is successful iff its forward change is at least the threshold and a bearish
one iff its forward change is at most minus the threshold; each direction's
rate is computed from that direction's records alone, as successes over
valid count, and is 0 when that count is 0. -/
theorem success_rule_and_rates (data : List Bar) (flags : List PatternRecord)
    (daysAfter : ℕ) (threshold : ℚ) :
    (∀ f o, calcOne data daysAfter threshold f = some o → o.direction = f.direction) ∧
    (∀ o, o ∈ flags.filterMap (calcOne data daysAfter threshold) →
      (o.direction = Direction.bullish → (o.success = true ↔ threshold ≤ o.priceChange)) ∧
      (o.direction = Direction.bearish → (o.success = true ↔ o.priceChange ≤ -threshold))) ∧
    ((calculate_success_probability data flags daysAfter threshold).1 =
      (let bull := (flags.filterMap (calcOne data daysAfter threshold)).filter
          fun o => decide (o.direction = Direction.bullish)
       if 0 < bull.length then
         ((bull.filter fun o => o.success).length : ℚ) / (bull.length : ℚ)
       else 0)) ∧
    ((calculate_success_probability data flags daysAfter threshold).2.1 =
      (let bear := (flags.filterMap (calcOne data daysAfter threshold)).filter
          fun o => decide (o.direction = Direction.bearish)
       if 0 < bear.length then
         ((bear.filter fun o => o.success).length : ℚ) / (bear.length : ℚ)
       else 0)) := by
  refine ⟨?_, ?_, ?_, ?_⟩
  · intro f o hc
    unfold calcOne at hc
    split at hc
    case h_1 => exact absurd hc (by simp)
    case h_2 idx heq =>
      split at hc
      case isTrue => exact absurd hc (by simp)
      case isFalse =>
        rw [Option.some_inj] at hc
        subst hc
        rfl
  · intro o ho
    obtain ⟨f, -, hc⟩ := List.mem_filterMap.mp ho
    unfold calcOne at hc
    split at hc
    case h_1 => exact absurd hc (by simp)
    case h_2 idx heq =>
      split at hc
      case isTrue => exact absurd hc (by simp)
      case isFalse =>
        rw [Option.some_inj] at hc
        subst hc
        constructor
        · intro hdir
          simp only at hdir
          simp [hdir]
        · intro hdir
          simp only at hdir
          simp [hdir]
  · by_cases h : flags = []
    · simp [calculate_success_probability, h]
    · simp only [calculate_success_probability, if_neg h]
      rw [List.filter_filter]
      simp only [Bool.and_comm]
  · by_cases h : flags = []
    · simp [calculate_success_probability, h]
    · simp only [calculate_success_probability, if_neg h]
      rw [List.filter_filter]
      simp only [Bool.and_comm]

theorem success_rule_and_rates_witness :
    bearOutcome ∈ flagsW.filterMap (calcOne dataB 1 (1/10000)) ∧
    bearOutcome.direction = Direction.bearish ∧
    (bearOutcome.success = true ↔ bearOutcome.priceChange ≤ -(1/10000)) :=
  ⟨by decide, by decide,
    ((success_rule_and_rates dataB flagsW 1 (1/10000)).2.1 bearOutcome (by decide)).2
      (by decide)⟩
